import Mathlib

/-!
Verification of the hybrid retrieval and structured-query routing engine of the
`ragpv` repository (a RAG agent over a logistics dataset).

The development shallowly embeds:
* `src/rag_engine/retriever.py` — field extraction (`extractar_valores_relevantes`)
  and the hybrid retrieval waterfall (`retrieve_context`), with the Supabase
  store, the Gemini embedding call and the `match_documentos` RPC modelled as
  oracle functions; store interactions are additionally recorded in an explicit
  event trace so that short-circuit / ordering properties can be stated.
* `src/api/endpoints.py` — the structured-query path (`consultar_bd`, the
  argument adaptation and the filter-coercion security measure) and the
  `/query` endpoint control flow (`query_agent`), with the LLM calls and the
  conversation-history store modelled as oracles.

Python regular expressions used by the extractor are embedded as explicit
character-list scanners that reproduce `re.findall` semantics (leftmost,
non-overlapping, greedy with backtracking) for the concrete patterns appearing
in the source.  Word boundaries (`\b`) are interpreted over ASCII alphanumerics,
underscore and the Spanish accented letters used by the source's alphabets.
-/

namespace Ragpv

/-! ## Characters and elementary scanners -/

/-- Uppercase ASCII letter, the class `[A-Z]`. -/
def isUpper (c : Char) : Bool := decide ('A' ≤ c ∧ c ≤ 'Z')

/-- ASCII digit, the class `\d` (over the uppercased ASCII texts handled here). -/
def isDig (c : Char) : Bool := decide ('0' ≤ c ∧ c ≤ '9')

/-- The class `[A-Z0-9]` used by the `tracto` and `trailer` patterns. -/
def isUpperDig (c : Char) : Bool := isUpper c || isDig c

/-- The letter class `[A-ZÁÉÍÓÚÑ]` of the `conductor` pattern. -/
def isLetterU (c : Char) : Bool :=
  isUpper c || c = 'Á' || c = 'É' || c = 'Í' || c = 'Ó' || c = 'Ú' || c = 'Ñ'

/-- Word characters for `\b`: ASCII alphanumerics, underscore and the Spanish
accented letters (a faithful restriction of Unicode `\w` to the alphabets the
source's lexicons and patterns use). -/
def isWordChar (c : Char) : Bool :=
  isUpper c || isDig c || decide ('a' ≤ c ∧ c ≤ 'z') || c = '_' ||
  c = 'Á' || c = 'É' || c = 'Í' || c = 'Ó' || c = 'Ú' || c = 'Ñ' || c = 'Ü' ||
  c = 'á' || c = 'é' || c = 'í' || c = 'ó' || c = 'ú' || c = 'ñ' || c = 'ü'

/-- Whitespace characters for `\s` (ASCII fragment). -/
def isSpaceC (c : Char) : Bool :=
  c = ' ' || c = '\t' || c = '\n' || c = '\x0d' || c = '\x0b' || c = '\x0c'

/-- Uppercasing of one character, mirroring Python `str.upper` on the ASCII
range plus the accented vowels and `ñ`/`ü` appearing in the source's data. -/
def upperChar (c : Char) : Char :=
  if c = 'á' then 'Á' else if c = 'é' then 'É' else if c = 'í' then 'Í'
  else if c = 'ó' then 'Ó' else if c = 'ú' then 'Ú' else if c = 'ñ' then 'Ñ'
  else if c = 'ü' then 'Ü'
  else if 'a' ≤ c ∧ c ≤ 'z' then Char.ofNat (c.toNat - 32) else c

/-- Uppercasing of a character list (`query.upper()`). -/
def upperL (l : List Char) : List Char := l.map upperChar

/-- Consume exactly `n` characters satisfying `p`, returning them and the rest. -/
def takeN (p : Char → Bool) : Nat → List Char → Option (List Char × List Char)
  | 0, t => some ([], t)
  | _ + 1, [] => none
  | n + 1, c :: t =>
    if p c then
      match takeN p n t with
      | some (m, r) => some (c :: m, r)
      | none => none
    else none

/-- Consume the maximal run of characters satisfying `p` (greedy `p*`). -/
def takeMax (p : Char → Bool) : List Char → List Char × List Char
  | [] => ([], [])
  | c :: t =>
    if p c then
      let (m, r) := takeMax p t
      (c :: m, r)
    else ([], c :: t)

/-- Does the text start with a non-word character (or end)?  This is the right
word-boundary test `\b` placed after a word character. -/
def noWordHead : List Char → Bool
  | [] => true
  | c :: _ => !(isWordChar c)

/-- Does `n` occur at the head of the text? -/
def leadEq : List Char → List Char → Bool
  | [], _ => true
  | _ :: _, [] => false
  | a :: as, b :: bs => a = b && leadEq as bs

/-- Substring containment, Python's `needle in texto`. -/
def hasSub (n : List Char) : List Char → Bool
  | [] => n.isEmpty
  | c :: t => leadEq n (c :: t) || hasSub n t

/-- Drop the pattern `p` from the head of the text, if it is there. -/
def dropLead : List Char → List Char → Option (List Char)
  | [], t => some t
  | _ :: _, [] => none
  | p :: ps, c :: t => if c = p then dropLead ps t else none

/-- Python `s.upper()` at the string level. -/
def pyUpper (s : String) : String := String.mk (upperL s.data)

/-- Python `s.startswith(pre)`. -/
def pyStartsWith (s pre : String) : Bool := leadEq pre.data s.data

/-- Python `s.strip()` (ASCII whitespace). -/
def pyStrip (s : String) : String :=
  String.mk (((s.data.dropWhile isSpaceC).reverse.dropWhile isSpaceC).reverse)

/-- `re.findall` driver for patterns without a leading `\b`: attempt the
matcher at every position from the left, emit each match and continue after it
(non-overlapping).  `fuel` bounds the recursion; `text.length` is always
enough because every matcher consumes at least one character. -/
def scanN (m : List Char → Option (List Char × List Char)) :
    Nat → List Char → List (List Char)
  | 0, _ => []
  | _ + 1, [] => []
  | fuel + 1, c :: t =>
    match m (c :: t) with
    | some (mt, r) => mt :: scanN m fuel r
    | none => scanN m fuel t

/-- Is the last character of a (nonempty) match a word character?  Used to
carry the left word-boundary state across a match. -/
def lastIsWord (mt : List Char) : Bool :=
  match mt.getLast? with
  | some c => isWordChar c
  | none => false

/-- `re.findall` driver for patterns starting with `\b`: the matcher is only
attempted at positions whose preceding character (tracked by the boolean) is
not a word character; the matcher itself checks the trailing boundary. -/
def scanB (m : List Char → Option (List Char × List Char)) :
    Nat → Bool → List Char → List (List Char)
  | 0, _, _ => []
  | _ + 1, _, [] => []
  | fuel + 1, prevW, c :: t =>
    if prevW then scanB m fuel (isWordChar c) t
    else
      match m (c :: t) with
      | some (mt, r) => mt :: scanB m fuel (lastIsWord mt) r
      | none => scanB m fuel (isWordChar c) t

/-! ## The concrete patterns of `extractar_valores_relevantes` -/

/-- A run of exactly `n` digits followed by a right word boundary; the building
block of `\b\d{lo,hi}\b` (greediness is the order in which the counts are tried). -/
def matchDigRun (n : Nat) (t : List Char) : Option (List Char × List Char) :=
  match takeN isDig n t with
  | some (m, r) => if noWordHead r then some (m, r) else none
  | none => none

/-- NUMERO: `\b\d{6,7}\b`. -/
def matchNumero (t : List Char) : Option (List Char × List Char) :=
  match matchDigRun 7 t with
  | some x => some x
  | none => matchDigRun 6 t

/-- One arm of HR: `n` digits, then `C`, then a right boundary. -/
def matchHrN (n : Nat) (t : List Char) : Option (List Char × List Char) :=
  match takeN isDig n t with
  | some (m, 'C' :: r) => if noWordHead r then some (m ++ ['C'], r) else none
  | _ => none

/-- HR: `\b\d{6,7}C\b`. -/
def matchHr (t : List Char) : Option (List Char × List Char) :=
  match matchHrN 7 t with
  | some x => some x
  | none => matchHrN 6 t

/-- Canonical shape of a `contenedor` match: four letters, a space, the digit
block, a dash and the final digit. -/
def contForm (ls ds : List Char) (c : Char) : List Char :=
  ls ++ ' ' :: (ds ++ ['-', c])

/-- Tail of the CONTENEDOR pattern after the four letters and the space:
`n` digits, a dash and one digit. -/
def contTail (ls : List Char) (n : Nat) (t2 : List Char) :
    Option (List Char × List Char) :=
  match takeN isDig n t2 with
  | some (ds, t3) =>
    match t3 with
    | d :: c :: t4 =>
      if d = '-' ∧ isDig c = true then some (contForm ls ds c, t4) else none
    | _ => none
  | none => none

/-- CONTENEDOR: `[A-Z]{4} \d{6,7}-\d` (mandatory space, trailing check digit). -/
def matchCont (t : List Char) : Option (List Char × List Char) :=
  match takeN isUpper 4 t with
  | some (ls, t1) =>
    match t1 with
    | sp :: t2 =>
      if sp = ' ' then
        match contTail ls 7 t2 with
        | some x => some x
        | none => contTail ls 6 t2
      else none
    | [] => none
  | none => none

/-- Greedy `\d{6,7}` with no trailing context: seven digits preferred. -/
def containerIdDigits (pre : List Char) (t : List Char) :
    Option (List Char × List Char) :=
  match takeN isDig 7 t with
  | some (ds, r) => some (pre ++ ds, r)
  | none =>
    match takeN isDig 6 t with
    | some (ds, r) => some (pre ++ ds, r)
    | none => none

/-- The module-level `container_id_pattern` of `retriever.py` (line 22):
`([A-Z]{4})\s?(\d{6,7})` — four uppercase letters, an OPTIONAL whitespace and
six or seven digits.  The pattern is defined in the source but never used by
`extractar_valores_relevantes`, whose `contenedor` regex instead demands a
mandatory space and a trailing `-digit`. -/
def matchContainerId (t : List Char) : Option (List Char × List Char) :=
  match takeN isUpper 4 t with
  | some (ls, r) =>
    match r with
    | c :: r2 =>
      if isSpaceC c then
        match containerIdDigits (ls ++ [c]) r2 with
        | some x => some x
        | none => containerIdDigits ls (c :: r2)
      else containerIdDigits ls (c :: r2)
    | [] => none
  | none => none

/-- TIPO: `IMPO|EXPO` (alternation tried left to right). -/
def matchTipo (t : List Char) : Option (List Char × List Char) :=
  match dropLead ['I', 'M', 'P', 'O'] t with
  | some r => some (['I', 'M', 'P', 'O'], r)
  | none =>
    match dropLead ['E', 'X', 'P', 'O'] t with
    | some r => some (['E', 'X', 'P', 'O'], r)
    | none => none

/-- Optional group of TRACTO: `(?: \([A-Z0-9]+\))?`. -/
def matchTractoGrp : List Char → Option (List Char × List Char)
  | ' ' :: '(' :: t =>
    let (m, r) := takeMax isUpperDig t
    if m.isEmpty then none
    else
      match r with
      | ')' :: r2 => some (' ' :: '(' :: (m ++ [')']), r2)
      | _ => none
  | _ => none

/-- One arm of TRACTO with `n` digits after the `T`. -/
def matchTractoN (n : Nat) (t1 : List Char) : Option (List Char × List Char) :=
  match takeN isDig n t1 with
  | some (ds, r) =>
    match matchTractoGrp r with
    | some (g, r2) => some ('T' :: (ds ++ g), r2)
    | none => some ('T' :: ds, r)
  | none => none

/-- TRACTO: `T\d{2,3}(?: \([A-Z0-9]+\))?`. -/
def matchTracto : List Char → Option (List Char × List Char)
  | 'T' :: t1 =>
    (match matchTractoN 3 t1 with
     | some x => some x
     | none => matchTractoN 2 t1)
  | _ => none

/-- TRAILER: `\b[A-Z0-9]{6}\b`. -/
def matchTrailer (t : List Char) : Option (List Char × List Char) :=
  match takeN isUpperDig 6 t with
  | some (m, r) => if noWordHead r then some (m, r) else none
  | none => none

/-- Greedy repetition `(?: [A-ZÁÉÍÓÚÑ]{2,})*` of the CONDUCTOR pattern. -/
def matchWordsAux : Nat → List Char → List Char × List Char
  | 0, t => ([], t)
  | fuel + 1, t =>
    match t with
    | ' ' :: t1 =>
      let (m, r) := takeMax isLetterU t1
      if 2 ≤ m.length then
        let (ms, r2) := matchWordsAux fuel r
        (' ' :: (m ++ ms), r2)
      else ([], t)
    | _ => ([], t)

/-- CONDUCTOR: `[A-ZÁÉÍÓÚÑ]{2,}(?: [A-ZÁÉÍÓÚÑ]{2,}){1,}` — two or more
uppercase words separated by single spaces. -/
def matchConductor (t : List Char) : Option (List Char × List Char) :=
  let (m, r) := takeMax isLetterU t
  if 2 ≤ m.length then
    let (ms, r2) := matchWordsAux r.length r
    if ms.isEmpty then none else some (m ++ ms, r2)
  else none

/-- One arm of RUT: `n` digits, a dash, a verifier in `[\dkK]`, right boundary. -/
def matchRutN (n : Nat) (t : List Char) : Option (List Char × List Char) :=
  match takeN isDig n t with
  | some (ds, '-' :: c :: r) =>
    if (isDig c || c = 'k' || c = 'K') && noWordHead r then
      some (ds ++ ['-', c], r)
    else none
  | _ => none

/-- RUT: `\b\d{7,8}-[\dkK]\b`. -/
def matchRut (t : List Char) : Option (List Char × List Char) :=
  match matchRutN 8 t with
  | some x => some x
  | none => matchRutN 7 t

/-- FECHA: `\d{4}-\d{2}-\d{2}` (no word boundaries). -/
def matchFecha (t : List Char) : Option (List Char × List Char) :=
  match takeN isDig 4 t with
  | some (y, '-' :: t1) =>
    match takeN isDig 2 t1 with
    | some (mo, '-' :: t2) =>
      match takeN isDig 2 t2 with
      | some (d, r) => some (y ++ '-' :: (mo ++ '-' :: d), r)
      | none => none
    | _ => none
  | _ => none

/-- PRODUCCION and ID_CONDUCTOR: `\b\d{4,6}\b`. -/
def matchProduccion (t : List Char) : Option (List Char × List Char) :=
  match matchDigRun 6 t with
  | some x => some x
  | none =>
    match matchDigRun 5 t with
    | some x => some x
    | none => matchDigRun 4 t

/-- ID_CONTENEDOR: `\b\d{6}\b`. -/
def matchIdContenedor (t : List Char) : Option (List Char × List Char) :=
  matchDigRun 6 t

/-- PISO_CHASIS: `\b\d{1,3}\b`. -/
def matchPisoChasis (t : List Char) : Option (List Char × List Char) :=
  match matchDigRun 3 t with
  | some x => some x
  | none =>
    match matchDigRun 2 t with
    | some x => some x
    | none => matchDigRun 1 t

/-! ## The field lexicons -/

def clientes_conocidos : List String := ["GOODYEAR", "P&G", "FALABELLA", "ARCOR"]

def estados_conocidos : List String :=
  ["CARGA CLIENTE", "DEVOLUCION VACIO", "DESCARGA CLIENTE", "INTERMEDIA"]

def modalidades : List String := ["EMPTY", "FULL"]

def lugares_frecuentes : List String :=
  ["CCTI", "PLANTA MAIPU", "P&G MACUL", "DYC SCL", "SAN ANTONIO", "VALPARAÍSO",
   "SANTIAGO", "CD ARCOR", "CONTOPSA SCL"]

def usuarios_conocidos : List String := ["BARBARA RUIZ"]

def faenas : List String := ["LOCALEROS"]

def areas_negocio : List String := ["CONTENEDORES"]

def tipos_contenedor : List String := ["40 HC"]

def sistemas : List String := ["TMS"]

def descripciones : List String := ["NO"]

/-- Containment test of each lexicon entry in the text, in lexicon order
(the source appends each found entry in the order of its `for` loop). -/
def lexMatches (lex : List String) (texto : List Char) : List String :=
  lex.filter (fun w => hasSub w.data texto)

/-! ## The extraction map -/

/-- The result dictionary of `extractar_valores_relevantes`: one ordered list
of string matches per field. -/
structure Extraccion where
  numero : List String
  hr : List String
  cliente : List String
  contenedor : List String
  tipo : List String
  tracto : List String
  trailer : List String
  conductor : List String
  rut : List String
  estado : List String
  modalidad : List String
  origen_nombre : List String
  destino_nombre : List String
  fecha_emision : List String
  produccion : List String
  rut_conductor : List String
  fecha_viaje : List String
  usuario : List String
  faena : List String
  eta_edt : List String
  area_negocio : List String
  tipo_contenedor : List String
  sistema : List String
  descripcion : List String
  id_contenedor : List String
  id_conductor : List String
  piso_chasis : List String
deriving DecidableEq, Repr

/-- Embedding of `SupabaseRetriever.extractar_valores_relevantes`: uppercase
the query, then populate every field with its regex/lexicon matches. -/
def extractar_valores_relevantes (query : String) : Extraccion :=
  let texto := upperL query.data
  let fechas := (scanN matchFecha texto.length texto).map String.mk
  let ruts := (scanB matchRut texto.length false texto).map String.mk
  let nombres := (scanN matchConductor texto.length texto).map String.mk
  { numero := (scanB matchNumero texto.length false texto).map String.mk
    hr := (scanB matchHr texto.length false texto).map String.mk
    cliente := lexMatches clientes_conocidos texto
    contenedor := (scanN matchCont texto.length texto).map String.mk
    tipo := (scanN matchTipo texto.length texto).map String.mk
    tracto := (scanN matchTracto texto.length texto).map String.mk
    trailer := (scanB matchTrailer texto.length false texto).map String.mk
    conductor := nombres.filter (fun n => !(clientes_conocidos.contains n))
    rut := ruts
    estado := lexMatches estados_conocidos texto
    modalidad := lexMatches modalidades texto
    origen_nombre := lexMatches lugares_frecuentes texto
    destino_nombre := lexMatches lugares_frecuentes texto
    fecha_emision := fechas
    produccion := (scanB matchProduccion texto.length false texto).map String.mk
    rut_conductor := ruts
    fecha_viaje := fechas
    usuario := lexMatches usuarios_conocidos texto
    faena := lexMatches faenas texto
    eta_edt := fechas
    area_negocio := lexMatches areas_negocio texto
    tipo_contenedor := lexMatches tipos_contenedor texto
    sistema := lexMatches sistemas texto
    descripcion := lexMatches descripciones texto
    id_contenedor := (scanB matchIdContenedor texto.length false texto).map String.mk
    id_conductor := (scanB matchProduccion texto.length false texto).map String.mk
    piso_chasis := (scanB matchPisoChasis texto.length false texto).map String.mk }

/-! ## Rows, documents and the retriever's collaborators -/

/-- A row returned by the document store; keys may be absent (`item.get`). -/
structure Row where
  fragmento : Option String
  fuente : Option String
  id : Option Nat
  similarity : Option Rat
deriving DecidableEq, Repr

/-- The uniform document representation built at the end of `retrieve_context`. -/
structure Document where
  page_content : String
  source : String
  id : Nat
  similarity : Option Rat
deriving DecidableEq, Repr

/-- Normalization of one store row into a `Document`, with the source's
defaults for missing keys. -/
def toDocument (item : Row) : Document :=
  { page_content := item.fragmento.getD ""
    source := item.fuente.getD "desconocido"
    id := item.id.getD 0
    similarity := item.similarity }

/-- The retriever's external collaborators: the filtered `ilike` query of the
document store (conditions and row limit), the Gemini embedding call
(`none` models an exception or a missing vector) and the `match_documentos`
nearest-neighbor RPC (embedding, threshold, count). -/
structure RetrieverEnv where
  storeFilter : List (String × String) → Nat → List Row
  embed : String → Option (List Rat)
  matchRpc : List Rat → Rat → Nat → List Row

/-- Observable calls `retrieve_context` makes to its collaborators. -/
inductive REvent where
  | filterCall (conds : List (String × String)) (limit : Nat)
  | embedCall (q : String)
  | rpcCall (emb : List Rat) (threshold : Rat) (count : Nat)
deriving DecidableEq, Repr

/-- Is an event a keyword-path (`ilike` filter) store call? -/
def isFilterEvent : REvent → Bool
  | .filterCall _ _ => true
  | _ => false

/-! ## The keyword stage of `retrieve_context` -/

/-- The `mapeo_columnas` dictionary, in its insertion order: every extracted
field is filtered against the single column `fragmento`. -/
def mapeo_columnas : List (String × String) :=
  [("tracto", "fragmento"), ("cliente", "fragmento"), ("contenedor", "fragmento"),
   ("conductor", "fragmento"), ("rut", "fragmento"), ("estado", "fragmento"),
   ("modalidad", "fragmento"), ("origen_nombre", "fragmento"),
   ("destino_nombre", "fragmento"), ("fecha_emision", "fragmento"),
   ("faena", "fragmento"), ("tipo", "fragmento"), ("trailer", "fragmento"),
   ("hr", "fragmento"), ("numero", "fragmento"), ("produccion", "fragmento"),
   ("usuario", "fragmento"), ("eta_edt", "fragmento"),
   ("area_negocio", "fragmento"), ("tipo_contenedor", "fragmento"),
   ("sistema", "fragmento"), ("descripcion", "fragmento"),
   ("id_contenedor", "fragmento"), ("id_conductor", "fragmento"),
   ("piso_chasis", "fragmento")]

/-- Dictionary access `valores.get(campo, [])` on the extraction map. -/
def valoresGet (v : Extraccion) : String → List String
  | "numero" => v.numero
  | "hr" => v.hr
  | "cliente" => v.cliente
  | "contenedor" => v.contenedor
  | "tipo" => v.tipo
  | "tracto" => v.tracto
  | "trailer" => v.trailer
  | "conductor" => v.conductor
  | "rut" => v.rut
  | "estado" => v.estado
  | "modalidad" => v.modalidad
  | "origen_nombre" => v.origen_nombre
  | "destino_nombre" => v.destino_nombre
  | "fecha_emision" => v.fecha_emision
  | "produccion" => v.produccion
  | "rut_conductor" => v.rut_conductor
  | "fecha_viaje" => v.fecha_viaje
  | "usuario" => v.usuario
  | "faena" => v.faena
  | "eta_edt" => v.eta_edt
  | "area_negocio" => v.area_negocio
  | "tipo_contenedor" => v.tipo_contenedor
  | "sistema" => v.sistema
  | "descripcion" => v.descripcion
  | "id_contenedor" => v.id_contenedor
  | "id_conductor" => v.id_conductor
  | "piso_chasis" => v.piso_chasis
  | _ => []

/-- One filter condition from an extracted value: date values are truncated to
their first ten characters, everything else is used verbatim. -/
def condValor (campo columna valor : String) : String × String :=
  if pyStartsWith campo "fecha" then
    if 10 ≤ valor.length then (columna, String.mk (valor.data.take 10))
    else (columna, valor)
  else (columna, valor)

/-- The full condition list of the first (conjunctive) keyword pass: every
extracted value of every mapped field, in `mapeo_columnas` order. -/
def condicionesOf (v : Extraccion) : List (String × String) :=
  mapeo_columnas.flatMap fun p => (valoresGet v p.1).map (condValor p.1 p.2)

/-- The fixed priority ordering of the pairwise fallback. -/
def prioridad : List String :=
  ["tracto", "cliente", "fecha_emision", "contenedor", "conductor"]

/-- The `valores_relevantes` list: for each priority field that has at least
one extracted value, the triple of field, mapped column and first value. -/
def valoresRelevantes (v : Extraccion) : List (String × String × String) :=
  prioridad.filterMap fun campo =>
    match valoresGet v campo with
    | [] => none
    | valor :: _ => some (campo, "fragmento", valor)

/-- `itertools.combinations(l, 2)` in its enumeration order. -/
def combos2 {α : Type} : List α → List (α × α)
  | [] => []
  | x :: xs => (xs.map fun y => (x, y)) ++ combos2 xs

/-- The two filter conditions of one fallback pair. -/
def pairConds (p : (String × String × String) × (String × String × String)) :
    List (String × String) :=
  [(p.1.2.1, p.1.2.2), (p.2.2.1, p.2.2.2)]

/-- The fallback loop: execute each pair's two-condition filter in order and
stop at the first that yields at least one row, recording every executed call. -/
def tryPairs (env : RetrieverEnv) :
    List ((String × String × String) × (String × String × String)) →
    List Row × List REvent
  | [] => ([], [])
  | p :: rest =>
    if (env.storeFilter (pairConds p) 10).isEmpty then
      ((tryPairs env rest).1,
       REvent.filterCall (pairConds p) 10 :: (tryPairs env rest).2)
    else (env.storeFilter (pairConds p) 10, [REvent.filterCall (pairConds p) 10])

/-- The keyword strategy of `retrieve_context` (strategies 1 and 2): the full
conjunctive pass, then the pairwise fallback when it produced no rows. -/
def keywordStage (env : RetrieverEnv) (v : Extraccion) : List Row × List REvent :=
  let condiciones := condicionesOf v
  let fst :=
    if condiciones.isEmpty then (([] : List Row), ([] : List REvent))
    else (env.storeFilter condiciones 10, [REvent.filterCall condiciones 10])
  if fst.1.isEmpty then
    let snd := tryPairs env (combos2 (valoresRelevantes v))
    (snd.1, fst.2 ++ snd.2)
  else fst

/-! ## `retrieve_context` -/

/-- The default semantic threshold `0.65`. -/
def defaultThreshold : Rat := 13 / 20

/-- Embedding of `SupabaseRetriever.retrieve_context`, returning the document
list together with the trace of collaborator calls.  The keyword stage runs
first; the semantic fallback (embedding plus `match_documentos` RPC) runs only
when the keyword stage produced no rows; a falsy embedding (exception or empty
vector) short-circuits to an empty result. -/
def retrieveContextT (env : RetrieverEnv) (query : String)
    (match_count : Nat) (match_threshold : Rat) :
    List Document × List REvent :=
  let valores := extractar_valores_relevantes query
  let kw := keywordStage env valores
  if kw.1.isEmpty then
    match env.embed query with
    | none => ([], kw.2 ++ [REvent.embedCall query])
    | some emb =>
      if emb.isEmpty then ([], kw.2 ++ [REvent.embedCall query])
      else
        let rows := env.matchRpc emb match_threshold match_count
        (rows.map toDocument,
         kw.2 ++ [REvent.embedCall query,
                  REvent.rpcCall emb match_threshold match_count])
  else (kw.1.map toDocument, kw.2)

/-- The document list of `retrieve_context` (defaults in the source:
`match_count = 5`, `match_threshold = 0.65`). -/
def retrieveContext (env : RetrieverEnv) (query : String)
    (match_count : Nat) (match_threshold : Rat) : List Document :=
  (retrieveContextT env query match_count match_threshold).1

/-! ## The structured-query path (`endpoints.py`) -/

/-- Python truthiness of the optional `p_columna_regex` argument. -/
def truthyS : Option String → Bool
  | none => false
  | some s => !(s.isEmpty)

/-- Python truthiness of the optional `filtros` dictionary. -/
def truthyF : Option (List (String × String)) → Bool
  | none => false
  | some l => !(l.isEmpty)

/-- The serializable result of `consultar_bd`. -/
inductive BdResult where
  | aggregate (v : Int)
  | distinctList (l : List String)
  | rowCount (n : Nat)
  | selected (l : List String)
deriving DecidableEq, Repr

/-- The data-store calls `consultar_bd` can execute. -/
inductive DbEvent where
  | rpcAgg (op : String) (regex : String) (filtros : List (String × String))
  | rpcDistinct (regex : String) (filtros : List (String × String))
  | countExec (tabla : String) (conds : List (String × String))
  | selectExec (tabla : String) (conds : List (String × String)) (limit : Nat)
deriving DecidableEq, Repr

/-- The filter conditions a store call carries. -/
def dbEventFilters : DbEvent → List (String × String)
  | .rpcAgg _ _ f => f
  | .rpcDistinct _ f => f
  | .countExec _ conds => conds
  | .selectExec _ conds _ => conds

/-- Does the event reach the server-side aggregation capability? -/
def isAggEvent : DbEvent → Bool
  | .rpcAgg _ _ _ => true
  | .rpcDistinct _ _ => true
  | _ => false

/-- Oracles for the store operations `consultar_bd` delegates to. -/
structure DbEnv where
  rpcAgg : String → String → List (String × String) → Int
  rpcDistinct : String → List (String × String) → List String
  countRows : String → List (String × String) → Nat
  selectRows : String → List (String × String) → Nat → List String

/-- The operations accepted by `consultar_bd` through RPC aggregation. -/
def aggOps : List String := ["SUM", "AVG", "MAX", "MIN", "SELECT DISTINCT"]

/-- All seven operations `consultar_bd` accepts. -/
def allOps : List String :=
  ["SELECT", "COUNT", "SUM", "AVG", "MAX", "MIN", "SELECT DISTINCT"]

/-- Embedding of `consultar_bd`: validation, dispatch on the upper-cased
operation, and the trace of executed store calls.  A raised `ValueError` is an
`Except.error`; no store call is executed on any error path. -/
def consultar_bd (env : DbEnv) (tabla operacion : String)
    (p_columna_regex : Option String) (filtros : Option (List (String × String))) :
    Except String BdResult × List DbEvent :=
  let opU := pyUpper operacion
  if opU = "SUM" ∨ opU = "AVG" ∨ opU = "MAX" ∨ opU = "MIN" then
    if truthyS p_columna_regex = false ∨ truthyF filtros = false then
      (.error "SUM/AVG/MAX/MIN requieren p_columna_regex y filtros.", [])
    else
      let regex := p_columna_regex.getD ""
      let f := filtros.getD []
      (.ok (.aggregate (env.rpcAgg opU regex f)), [.rpcAgg opU regex f])
  else if opU = "SELECT DISTINCT" then
    if truthyS p_columna_regex = false ∨ truthyF filtros = false then
      (.error "SELECT DISTINCT requiere p_columna_regex y filtros.", [])
    else
      let regex := p_columna_regex.getD ""
      let f := filtros.getD []
      (.ok (.distinctList (env.rpcDistinct regex f)), [.rpcDistinct regex f])
  else if opU = "COUNT" then
    let conds := filtros.getD []
    (.ok (.rowCount (env.countRows tabla conds)), [.countExec tabla conds])
  else if opU = "SELECT" then
    let conds := filtros.getD []
    (.ok (.selected (env.selectRows tabla conds 10)), [.selectExec tabla conds 10])
  else (.error ("Operación no soportada: " ++ operacion), [])

/-! ## Argument adaptation and the filter-coercion security measure -/

/-- The arguments of a Gemini `consultar_bd` function call, before adaptation. -/
structure GeminiArgs where
  tabla : Option String
  operacion : String
  columna : Option String
  filtros : Option (List (String × String))
deriving DecidableEq, Repr

/-- The adapted argument dictionary passed to `consultar_bd`. -/
structure BdArgs where
  tabla : String
  operacion : String
  p_columna_regex : Option String
  filtros : Option (List (String × String))
deriving DecidableEq, Repr

/-- Embedding of the adaptation block of `query_agent`: rename `columna`,
default the table, and — the security measure — coerce any non-empty filter
dictionary to the single sanctioned column `fragmento` holding the
space-joined concatenation of all supplied filter values. -/
def adaptArgs (a : GeminiArgs) : BdArgs :=
  { tabla := a.tabla.getD "documentos_embeddings"
    operacion := a.operacion
    p_columna_regex := a.columna
    filtros :=
      match a.filtros with
      | some l =>
        if l.isEmpty then some l
        else some [("fragmento", String.intercalate " " (l.map Prod.snd))]
      | none => none }

/-- The `consultar_bd(**args_dict)` call as performed by `query_agent`. -/
def consultarBdFromCall (env : DbEnv) (a : GeminiArgs) :
    Except String BdResult × List DbEvent :=
  let b := adaptArgs a
  consultar_bd env b.tabla b.operacion b.p_columna_regex b.filtros

/-! ## The `/query` endpoint (`query_agent`) -/

/-- A Gemini function-call part. -/
structure FunctionCall where
  name : String
  args : GeminiArgs
deriving DecidableEq, Repr

/-- One row of the `conversacion_historial` table. -/
structure HistEntry where
  id_usuario : String
  rol : String
  contenido : String
deriving DecidableEq, Repr

/-- The request schema of the endpoint. -/
structure QueryRequestM where
  query : String
  session_id : Option String
  user_id : Option String
deriving DecidableEq, Repr

/-- The response schema of the endpoint. -/
structure QueryResponseM where
  response : String
  source_documents : Option (List Document)
  session_id : Option String
deriving DecidableEq, Repr

/-- The endpoint's external collaborators: history fetch/insert, the two
Gemini models and the RAG generator.  Prompt texts are opaque to the verified
properties, so the prompt-building functions below keep only the dynamic parts. -/
structure AgentEnv where
  historyFetch : String → List (String × String)
  geminiPro : String → Option FunctionCall
  db : DbEnv
  geminiFlash : String → String
  retriever : RetrieverEnv
  generate : String → String → String → String
  historyInsert : List HistEntry → Except String Unit

/-- Rendering of the fetched history rows (`rol: contenido`, oldest first). -/
def histToString (rows : List (String × String)) : String :=
  if rows.isEmpty then ""
  else String.intercalate "\n" (rows.reverse.map fun rc => rc.1 ++ ": " ++ rc.2)

/-- The schema-enriched routing prompt (static text abbreviated). -/
def promptConEsquema (historial q : String) : String :=
  "Eres un asistente de base de datos.\nHistorial:\n" ++
  (if historial.isEmpty then "No hay historial previo." else historial) ++
  "\nPregunta: " ++ q

/-- Rendering of a raw `consultar_bd` result into the refinement prompt. -/
def bdResultToString : BdResult → String
  | .aggregate v => toString v
  | .distinctList l => String.intercalate ", " l
  | .rowCount n => toString n
  | .selected l => String.intercalate ", " l

/-- The refinement prompt sent to the flash model (static text abbreviated). -/
def promptRefinamiento (q : String) (res : BdResult) : String :=
  "Pregunta del usuario: " ++ q ++ "\nResultado de la base de datos: " ++
  bdResultToString res

/-- The no-context general-knowledge prompt (static text abbreviated). -/
def promptGeneral (historial q : String) : String :=
  "Historial:\n" ++
  (if historial.isEmpty then "No hay historial previo." else historial) ++
  "\nPregunta: " ++ q

/-- Embedding of `documents_to_string` from `utils/helpers.py`. -/
def documents_to_string (documents : List Document) : String :=
  if documents.isEmpty then ""
  else
    String.intercalate "\n" (documents.map fun doc =>
      "Fuente: " ++ doc.source ++ "\nContenido: " ++ doc.page_content ++ "\n---")

/-- The history-append-and-return block shared verbatim by both branches of
`query_agent`: when a user identifier is present, insert exactly the two
conversation rows (user turn, assistant turn) and return the response; an
insert failure propagates to the endpoint's exception handler. -/
def finishWithHistory (env : AgentEnv) (req : QueryRequestM) (respuesta : String)
    (docs : Option (List Document)) :
    Except String QueryResponseM × List (List HistEntry) :=
  match req.user_id with
  | some uid =>
    match env.historyInsert
        [⟨uid, "user", req.query⟩, ⟨uid, "ai", respuesta⟩] with
    | .ok _ =>
      (.ok ⟨respuesta, docs, none⟩,
       [[⟨uid, "user", req.query⟩, ⟨uid, "ai", respuesta⟩]])
    | .error e =>
      (.error e, [[⟨uid, "user", req.query⟩, ⟨uid, "ai", respuesta⟩]])
  | none => (.ok ⟨respuesta, docs, none⟩, [])

/-- The RAG branch of `query_agent` (step 6 of the source): retrieval, choice
of the generation prompt, history append, response with source documents. -/
def ragBranch (env : AgentEnv) (req : QueryRequestM) (historial : String) :
    Except String QueryResponseM × List (List HistEntry) :=
  let docs := retrieveContext env.retriever req.query 5 defaultThreshold
  let respuesta :=
    if docs.isEmpty then pyStrip (env.geminiFlash (promptGeneral historial req.query))
    else env.generate req.query (documents_to_string docs) historial
  finishWithHistory env req respuesta (some docs)

/-- The function-calling branch of `query_agent` (steps 4 and 5 of the
source): adapted `consultar_bd` call, refinement, history append.  An error
raised by `consultar_bd` or by the insert propagates to the endpoint's
exception handler. -/
def structuredBranch (env : AgentEnv) (req : QueryRequestM) (fc : FunctionCall) :
    Except String QueryResponseM × List (List HistEntry) :=
  match (consultarBdFromCall env.db fc.args).1 with
  | .error e => (.error e, [])
  | .ok res =>
    finishWithHistory env req
      (pyStrip (env.geminiFlash (promptRefinamiento req.query res))) none

/-- Embedding of the `query_agent` endpoint: fetch history, ask the pro model
for a function call, then dispatch to the structured branch (only when the
call names `consultar_bd`) or to the RAG branch.  The second component is the
trace of history-insert calls; an `Except.error` result models the
`HTTPException(500)` raised by the handler. -/
def queryAgent (env : AgentEnv) (req : QueryRequestM) :
    Except String QueryResponseM × List (List HistEntry) :=
  let historial :=
    match req.user_id with
    | some uid => histToString (env.historyFetch uid)
    | none => ""
  match env.geminiPro (promptConEsquema historial req.query) with
  | some fc =>
    if fc.name = "consultar_bd" then structuredBranch env req fc
    else ragBranch env req historial
  | none => ragBranch env req historial

/-! ## Spec-side descriptions and concrete test environments -/

/-- A store whose keyword filter finds six matching rows (within the
source's own limit of 10). -/
def envSix : RetrieverEnv :=
  { storeFilter := fun _ lim =>
      ((List.range 6).map fun i =>
        { fragmento := some ("GOODYEAR " ++ toString i), fuente := some "excel",
          id := none, similarity := none }).take lim
    embed := fun _ => none
    matchRpc := fun _ _ _ => [] }

/-- A store that returns one row for every keyword filter. -/
def envOne : RetrieverEnv :=
  { storeFilter := fun _ _ =>
      [{ fragmento := some "GOODYEAR viaje", fuente := some "excel",
         id := none, similarity := none }]
    embed := fun _ => none
    matchRpc := fun _ _ _ => [] }

/-- A retriever whose store finds nothing and whose embedding call fails. -/
def envNothing : RetrieverEnv :=
  { storeFilter := fun _ _ => [], embed := fun _ => none,
    matchRpc := fun _ _ _ => [] }

/-- Modelled from the spec: the subset of the fixed priority fields that have
at least one extracted value, in the declared order. -/
def specPriorityFields (v : Extraccion) : List String :=
  prioridad.filter fun campo => !(valoresGet v campo).isEmpty

/-- Modelled from the spec: every unordered pair of priority fields with
values, in the fixed enumeration order, each turned into the two-condition
filter built from the first extracted value of each field. -/
def specPairConds (v : Extraccion) : List (List (String × String)) :=
  (combos2 (specPriorityFields v)).map fun p =>
    [("fragmento", (valoresGet v p.1).headD ""),
     ("fragmento", (valoresGet v p.2).headD "")]

/-- Modelled from the spec: execute the candidate filters in order, stopping
at the first that yields at least one row; returns the winning rows (or
nothing) together with the list of filters actually executed. -/
def specFirstHit (store : List (String × String) → Nat → List Row) :
    List (List (String × String)) → List Row × List (List (String × String))
  | [] => ([], [])
  | conds :: rest =>
    if (store conds 10).isEmpty then
      ((specFirstHit store rest).1, conds :: (specFirstHit store rest).2)
    else (store conds 10, [conds])

/-- A store with no rows at all, for exercising the fallback. -/
def envNoRows : RetrieverEnv :=
  { storeFilter := fun _ _ => [], embed := fun _ => none,
    matchRpc := fun _ _ _ => [] }

/-- An endpoint environment whose history insert always fails. -/
def envInsertFail : AgentEnv :=
  { historyFetch := fun _ => []
    geminiPro := fun _ => none
    db := { rpcAgg := fun _ _ _ => 0, rpcDistinct := fun _ _ => [],
            countRows := fun _ _ => 0, selectRows := fun _ _ _ => [] }
    geminiFlash := fun _ => "RESPUESTA"
    retriever := { storeFilter := fun _ _ => [], embed := fun _ => none,
                   matchRpc := fun _ _ _ => [] }
    generate := fun _ _ _ => "G"
    historyInsert := fun _ => .error "insert failed" }

/-- A request with a user identifier present. -/
def reqWithUser : QueryRequestM :=
  { query := "hola", session_id := none, user_id := some "u1" }

/-- An endpoint environment identical to the failing one except that the
history insert succeeds. -/
def envInsertOk : AgentEnv :=
  { historyFetch := fun _ => []
    geminiPro := fun _ => none
    db := { rpcAgg := fun _ _ _ => 0, rpcDistinct := fun _ _ => [],
            countRows := fun _ _ => 0, selectRows := fun _ _ _ => [] }
    geminiFlash := fun _ => "RESPUESTA"
    retriever := { storeFilter := fun _ _ => [], embed := fun _ => none,
                   matchRpc := fun _ _ _ => [] }
    generate := fun _ _ _ => "G"
    historyInsert := fun _ => .ok () }

/-! ## Helper lemmas on the keyword stage -/

/-- Every event recorded by the pairwise fallback is a keyword filter call. -/
theorem tryPairs_events (env : RetrieverEnv)
    (ps : List ((String × String × String) × (String × String × String))) :
    ∀ e ∈ (tryPairs env ps).2, isFilterEvent e = true := by
  induction ps with
  | nil => simp [tryPairs]
  | cons p rest ih =>
    intro e he
    unfold tryPairs at he
    cases hx : (env.storeFilter (pairConds p) 10).isEmpty
    · rw [hx] at he
      simp only [Bool.false_eq_true, if_false, List.mem_singleton] at he
      subst he
      rfl
    · rw [hx] at he
      simp only [if_true, List.mem_cons] at he
      rcases he with rfl | he
      · rfl
      · exact ih e he

/-- Every event recorded by the whole keyword stage is a keyword filter call. -/
theorem keywordStage_events (env : RetrieverEnv) (v : Extraccion) :
    ∀ e ∈ (keywordStage env v).2, isFilterEvent e = true := by
  intro e he
  simp only [keywordStage] at he
  cases hc : (condicionesOf v).isEmpty
  · rw [hc] at he
    simp only [Bool.false_eq_true, if_false] at he
    cases h1 : (env.storeFilter (condicionesOf v) 10).isEmpty
    · rw [h1] at he
      simp only [Bool.false_eq_true, if_false, List.mem_singleton] at he
      subst he
      rfl
    · rw [h1] at he
      simp only [if_true, List.singleton_append, List.mem_cons] at he
      rcases he with rfl | he
      · rfl
      · exact tryPairs_events env _ e he
  · rw [hc] at he
    simp only [if_true, List.isEmpty_nil, List.nil_append] at he
    exact tryPairs_events env _ e he

/-- If the store never returns rows, the pairwise fallback returns no rows. -/
theorem tryPairs_empty (env : RetrieverEnv)
    (ps : List ((String × String × String) × (String × String × String)))
    (h : ∀ conds, env.storeFilter conds 10 = []) :
    (tryPairs env ps).1 = [] := by
  induction ps with
  | nil => simp [tryPairs]
  | cons p rest ih =>
    unfold tryPairs
    simp [h (pairConds p), ih]

/-- The rows of the pairwise fallback come from a single limit-10 store call. -/
theorem tryPairs_len (env : RetrieverEnv)
    (ps : List ((String × String × String) × (String × String × String)))
    (hstore : ∀ conds lim, (env.storeFilter conds lim).length ≤ lim) :
    (tryPairs env ps).1.length ≤ 10 := by
  induction ps with
  | nil => simp [tryPairs]
  | cons p rest ih =>
    unfold tryPairs
    by_cases hi : (env.storeFilter (pairConds p) 10).isEmpty
    · simpa [hi] using ih
    · simpa [hi] using hstore (pairConds p) 10

/-- The keyword stage always returns at most ten rows (its store calls are all
issued with the fixed limit 10). -/
theorem keywordStage_len (env : RetrieverEnv) (v : Extraccion)
    (hstore : ∀ conds lim, (env.storeFilter conds lim).length ≤ lim) :
    (keywordStage env v).1.length ≤ 10 := by
  simp only [keywordStage]
  cases hc : (condicionesOf v).isEmpty
  · cases h1 : (env.storeFilter (condicionesOf v) 10).isEmpty
    · simpa [hc, h1] using hstore (condicionesOf v) 10
    · simpa [hc, h1] using tryPairs_len env _ hstore
  · simpa [hc] using tryPairs_len env _ hstore

/-! # Claim theorems -/

/-- C10: for every query, the extraction map satisfies the aliasing
invariants of the source: `fecha_emision`, `fecha_viaje` and `eta_edt` hold
the same list of `YYYY-MM-DD` matches, `rut_conductor` equals `rut`, and
`origen_nombre` equals `destino_nombre` (every recognized place is appended
to both). -/
theorem extraction_alias_fields (q : String) :
    (extractar_valores_relevantes q).fecha_emision =
      (extractar_valores_relevantes q).fecha_viaje ∧
    (extractar_valores_relevantes q).fecha_viaje =
      (extractar_valores_relevantes q).eta_edt ∧
    (extractar_valores_relevantes q).rut_conductor =
      (extractar_valores_relevantes q).rut ∧
    (extractar_valores_relevantes q).origen_nombre =
      (extractar_valores_relevantes q).destino_nombre :=
  ⟨rfl, rfl, rfl, rfl⟩

/-- Every store call of `consultar_bd` on an explicitly supplied filter
dictionary carries exactly that dictionary as its filter conditions. -/
theorem consultar_bd_filters (env : DbEnv) (tabla op : String)
    (regex : Option String) (f : List (String × String)) :
    ∀ e ∈ (consultar_bd env tabla op regex (some f)).2, dbEventFilters e = f := by
  intro e he
  simp only [consultar_bd] at he
  repeat' split at he
  all_goals simp_all [dbEventFilters]

/-- C2: for every structured function call whose arguments include a
non-empty `filtros` mapping, every query executed against the data store
receives exactly one filter key, the sanctioned column `fragmento`, whose
value is the space-joined concatenation of all supplied filter values; no
caller-supplied column name is used as a filter target. -/
theorem structured_single_filter_key (env : DbEnv) (a : GeminiArgs)
    (l : List (String × String)) (hf : a.filtros = some l) (hne : l ≠ []) :
    ∀ e ∈ (consultarBdFromCall env a).2,
      dbEventFilters e =
        [("fragmento", String.intercalate " " (l.map Prod.snd))] := by
  intro e he
  simp only [consultarBdFromCall] at he
  have hco : (adaptArgs a).filtros =
      some [("fragmento", String.intercalate " " (l.map Prod.snd))] := by
    simp [adaptArgs, hf, hne]
  rw [hco] at he
  exact consultar_bd_filters env _ _ _ _ e he

/-- Witness for C2 at the spec's own example `{client: ACME, status: FULL}`:
the single executed store call filters only on `fragmento` with both values. -/
theorem structured_single_filter_key_witness :
    dbEventFilters (DbEvent.countExec "documentos_embeddings"
        [("fragmento", "ACME FULL")]) = [("fragmento", "ACME FULL")] := by
  have h := structured_single_filter_key
    { rpcAgg := fun _ _ _ => 7, rpcDistinct := fun _ _ => [],
      countRows := fun _ _ => 3, selectRows := fun _ _ _ => [] }
    { tabla := none, operacion := "COUNT", columna := none,
      filtros := some [("cliente", "ACME"), ("estado", "FULL")] }
    [("cliente", "ACME"), ("estado", "FULL")] rfl (by decide)
  exact h (DbEvent.countExec "documentos_embeddings"
    [("fragmento", "ACME FULL")]) (by decide)

/-- C3: `consultar_bd` with operation SUM, AVG, MAX, MIN or SELECT DISTINCT
fails with a validation error before any data-store call whenever the regex
column or the filters argument is empty/absent; succeeds — reaching the
store's server-side aggregation capability in a single call — when both are
present; and fails hard, again without touching the store, for any operation
outside the seven enumerated ones. -/
theorem consultar_bd_operation_validation (env : DbEnv) (tabla op : String)
    (regex : Option String) (filtros : Option (List (String × String))) :
    (pyUpper op ∈ aggOps →
      (truthyS regex = false ∨ truthyF filtros = false) →
      (∃ e, (consultar_bd env tabla op regex filtros).1 = .error e) ∧
        (consultar_bd env tabla op regex filtros).2 = []) ∧
    (pyUpper op ∈ aggOps → truthyS regex = true → truthyF filtros = true →
      (∃ v, (consultar_bd env tabla op regex filtros).1 = .ok v) ∧
        ∃ ev, (consultar_bd env tabla op regex filtros).2 = [ev] ∧
          isAggEvent ev = true) ∧
    (pyUpper op ∉ allOps →
      (∃ e, (consultar_bd env tabla op regex filtros).1 = .error e) ∧
        (consultar_bd env tabla op regex filtros).2 = []) := by
  refine ⟨?_, ?_, ?_⟩
  · intro hop hfalsy
    simp only [aggOps, List.mem_cons, List.not_mem_nil, or_false] at hop
    rcases hop with h | h | h | h | h <;>
      simp [consultar_bd, h, hfalsy]
  · intro hop hts htf
    simp only [aggOps, List.mem_cons, List.not_mem_nil, or_false] at hop
    rcases hop with h | h | h | h | h <;>
      simp [consultar_bd, h, hts, htf, isAggEvent]
  · intro hop
    simp only [allOps, List.mem_cons, List.not_mem_nil, or_false, not_or] at hop
    obtain ⟨h1, h2, h3, h4, h5, h6, h7⟩ := hop
    simp [consultar_bd, h1, h2, h3, h4, h5, h6, h7]

/-- Witness for C3: SUM without a regex column fails before the store; SUM
with both arguments reaches the aggregation RPC; DELETE fails hard. -/
theorem consultar_bd_operation_validation_witness :
    ((∃ e, (consultar_bd
        { rpcAgg := fun _ _ _ => 42, rpcDistinct := fun _ _ => [],
          countRows := fun _ _ => 0, selectRows := fun _ _ _ => [] }
        "documentos_embeddings" "SUM" none (some [("fragmento", "X")])).1 =
          .error e) ∧
      (consultar_bd
        { rpcAgg := fun _ _ _ => 42, rpcDistinct := fun _ _ => [],
          countRows := fun _ _ => 0, selectRows := fun _ _ _ => [] }
        "documentos_embeddings" "SUM" none (some [("fragmento", "X")])).2 = []) ∧
    ((∃ v, (consultar_bd
        { rpcAgg := fun _ _ _ => 42, rpcDistinct := fun _ _ => [],
          countRows := fun _ _ => 0, selectRows := fun _ _ _ => [] }
        "documentos_embeddings" "SUM" (some "R") (some [("fragmento", "X")])).1 =
          .ok v) ∧
      ∃ ev, (consultar_bd
        { rpcAgg := fun _ _ _ => 42, rpcDistinct := fun _ _ => [],
          countRows := fun _ _ => 0, selectRows := fun _ _ _ => [] }
        "documentos_embeddings" "SUM" (some "R") (some [("fragmento", "X")])).2 =
          [ev] ∧ isAggEvent ev = true) ∧
    ((∃ e, (consultar_bd
        { rpcAgg := fun _ _ _ => 42, rpcDistinct := fun _ _ => [],
          countRows := fun _ _ => 0, selectRows := fun _ _ _ => [] }
        "documentos_embeddings" "DELETE" none none).1 = .error e) ∧
      (consultar_bd
        { rpcAgg := fun _ _ _ => 42, rpcDistinct := fun _ _ => [],
          countRows := fun _ _ => 0, selectRows := fun _ _ _ => [] }
        "documentos_embeddings" "DELETE" none none).2 = []) :=
  ⟨(consultar_bd_operation_validation _ _ "SUM" none _).1 (by decide)
      (Or.inl (by decide)),
   (consultar_bd_operation_validation _ _ "SUM" (some "R") _).2.1 (by decide)
      (by decide) (by decide),
   (consultar_bd_operation_validation _ _ "DELETE" none none).2.2 (by decide)⟩

/-- Counterexample to C6 as stated: on the query `GOODYEAR FALABELLA` the
`cliente` field has two extracted values and the full conjunctive pass turns
BOTH into filter conditions — the second value `FALABELLA` does contribute a
condition, contradicting the claim that only the first value per field is
used in that pass (the third condition comes from the `conductor` field). -/
theorem full_pass_first_value_cex :
    (extractar_valores_relevantes "GOODYEAR FALABELLA").cliente =
      ["GOODYEAR", "FALABELLA"] ∧
    condicionesOf (extractar_valores_relevantes "GOODYEAR FALABELLA") =
      [("fragmento", "GOODYEAR"), ("fragmento", "FALABELLA"),
       ("fragmento", "GOODYEAR FALABELLA")] := by
  constructor <;> decide

/-- C6 amended: in the full conjunctive pass EVERY extracted value of every
mapped field (not only the first) is turned into a filter condition; the
restriction to the first value per field applies only to the pairwise
fallback. -/
theorem full_pass_all_values (q campo columna valor : String)
    (hm : (campo, columna) ∈ mapeo_columnas)
    (hv : valor ∈ valoresGet (extractar_valores_relevantes q) campo) :
    condValor campo columna valor ∈
      condicionesOf (extractar_valores_relevantes q) := by
  unfold condicionesOf
  rw [List.mem_flatMap]
  exact ⟨(campo, columna), hm, List.mem_map_of_mem _ hv⟩

/-- Witness for the amended C6: the second `cliente` value of
`GOODYEAR FALABELLA` yields a condition of the full pass. -/
theorem full_pass_all_values_witness :
    condValor "cliente" "fragmento" "FALABELLA" ∈
      condicionesOf (extractar_valores_relevantes "GOODYEAR FALABELLA") :=
  full_pass_all_values "GOODYEAR FALABELLA" "cliente" "fragmento" "FALABELLA"
    (by decide) (by decide)


/-- Counterexample to C4 as stated: with the default `match_count = 5`, the
keyword path of `retrieve_context` returns six documents for `GOODYEAR`,
because the keyword store call is issued with the fixed limit 10, not with
`match_count`. -/
theorem retrieve_match_count_cex :
    ¬ ((retrieveContext envSix "GOODYEAR" 5 defaultThreshold).length ≤ 5) := by
  decide

/-- C4 amended: provided the store honours the requested row limits,
`retrieve_context` returns at most `max 10 match_count` documents — at most
10 on the keyword path (the fixed keyword limit) and at most `match_count`
on the semantic path. -/
theorem retrieve_length_bound (env : RetrieverEnv) (q : String) (k : Nat)
    (th : Rat)
    (hstore : ∀ conds lim, (env.storeFilter conds lim).length ≤ lim)
    (hrpc : ∀ emb t c, (env.matchRpc emb t c).length ≤ c) :
    (retrieveContext env q k th).length ≤ max 10 k := by
  simp only [retrieveContext, retrieveContextT]
  cases hkw : (keywordStage env (extractar_valores_relevantes q)).1.isEmpty
  · simp only [Bool.false_eq_true, if_false, List.length_map]
    exact le_trans (keywordStage_len env _ hstore) (le_max_left 10 k)
  · simp only [if_true]
    cases hemb : env.embed q with
    | none => simp
    | some emb =>
      cases he : emb.isEmpty
      · simp only [he, Bool.false_eq_true, if_false, List.length_map]
        exact le_trans (hrpc emb th k) (le_max_right 10 k)
      · simp [he]

/-- Witness for the amended C4 (keyword path, six rows, bound `max 10 5`). -/
theorem retrieve_length_bound_witness :
    (retrieveContext envSix "GOODYEAR" 5 defaultThreshold).length ≤ max 10 5 :=
  retrieve_length_bound envSix "GOODYEAR" 5 defaultThreshold
    (fun conds lim => by simp [envSix]) (fun emb t c => by simp [envSix])

/-- C1: the hybrid retrieval is a strict waterfall — whenever the keyword
strategy (full conjunctive pass or pairwise fallback) returns at least one
row, `retrieve_context` returns exactly those rows as documents and the
semantic path is never invoked: the event trace contains only keyword filter
calls, hence no embedding creation and no nearest-neighbor RPC. -/
theorem hybrid_short_circuit (env : RetrieverEnv) (q : String) (k : Nat)
    (th : Rat)
    (h : (keywordStage env (extractar_valores_relevantes q)).1 ≠ []) :
    (retrieveContextT env q k th).1 =
      (keywordStage env (extractar_valores_relevantes q)).1.map toDocument ∧
    ∀ e ∈ (retrieveContextT env q k th).2, isFilterEvent e = true := by
  have hkw : (keywordStage env (extractar_valores_relevantes q)).1.isEmpty = false := by
    cases hx : (keywordStage env (extractar_valores_relevantes q)).1 with
    | nil => exact absurd hx h
    | cons a l => simp
  constructor
  · simp only [retrieveContextT, hkw, Bool.false_eq_true, if_false]
  · intro e he
    simp only [retrieveContextT, hkw, Bool.false_eq_true, if_false] at he
    exact keywordStage_events env _ e he


/-- Witness for C1: on `GOODYEAR` the keyword pass finds a row, the result is
that row's document and the trace holds keyword filter calls only. -/
theorem hybrid_short_circuit_witness :
    (keywordStage envOne (extractar_valores_relevantes "GOODYEAR")).1 ≠ [] ∧
    ((retrieveContextT envOne "GOODYEAR" 5 defaultThreshold).1 =
      (keywordStage envOne (extractar_valores_relevantes "GOODYEAR")).1.map
        toDocument ∧
     ∀ e ∈ (retrieveContextT envOne "GOODYEAR" 5 defaultThreshold).2,
       isFilterEvent e = true) :=
  ⟨by decide, hybrid_short_circuit envOne "GOODYEAR" 5 defaultThreshold (by decide)⟩

/-- C8: if the keyword path yields nothing and the embedding collaborator
errors or returns no vector — or the nearest-neighbor search returns no rows —
`retrieve_context` returns an empty list instead of propagating the failure
(the embedding is a total oracle returning `none` on error, so no exception
escapes). -/
theorem semantic_failure_degrades_empty (env : RetrieverEnv) (q : String)
    (k : Nat) (th : Rat)
    (hkw : ∀ conds, env.storeFilter conds 10 = [])
    (hsem : env.embed q = none ∨ env.embed q = some [] ∨
      ∀ emb, env.matchRpc emb th k = []) :
    retrieveContext env q k th = [] := by
  have hk1 : (keywordStage env (extractar_valores_relevantes q)).1 = [] := by
    simp only [keywordStage]
    cases hc : (condicionesOf (extractar_valores_relevantes q)).isEmpty
    · simpa [hc, hkw] using tryPairs_empty env _ hkw
    · simpa [hc] using tryPairs_empty env _ hkw
  simp only [retrieveContext, retrieveContextT]
  rw [hk1]
  simp only [List.isEmpty_nil, if_true]
  rcases hsem with h | h | h
  · simp [h]
  · simp [h]
  · cases hemb : env.embed q with
    | none => simp
    | some emb =>
      by_cases he : emb.isEmpty
      · simp [he]
      · simp [he, h emb]


/-- Witness for C8: no keyword hits and a failing embedding produce `[]`. -/
theorem semantic_failure_degrades_empty_witness :
    retrieveContext envNothing "quien fundo la empresa" 5 defaultThreshold = [] :=
  semantic_failure_degrades_empty envNothing "quien fundo la empresa" 5
    defaultThreshold (fun _ => rfl) (Or.inl rfl)

/-! ## The pairwise fallback against the spec's description (C7) -/


/-- The source's `valores_relevantes` list is the spec's priority-field
subset paired with each field's first value. -/
theorem valoresRelevantes_eq (v : Extraccion) :
    valoresRelevantes v =
      (specPriorityFields v).map
        (fun campo => (campo, "fragmento", (valoresGet v campo).headD "")) := by
  unfold valoresRelevantes specPriorityFields
  induction prioridad with
  | nil => rfl
  | cons a l ih =>
    cases hv : valoresGet v a with
    | nil => simp [List.filterMap_cons, List.filter_cons, hv, ih]
    | cons x xs => simp [List.filterMap_cons, List.filter_cons, hv, ih]

/-- `combinations(·, 2)` commutes with mapping. -/
theorem combos2_map {α β : Type} (f : α → β) (l : List α) :
    combos2 (l.map f) = (combos2 l).map fun p => (f p.1, f p.2) := by
  induction l with
  | nil => rfl
  | cons x xs ih =>
    simp [combos2, ih, List.map_map, Function.comp]

/-- The condition lists tried by the source's pair loop are exactly the
spec-described pair filters. -/
theorem pairConds_spec (v : Extraccion) :
    (combos2 (valoresRelevantes v)).map pairConds = specPairConds v := by
  rw [valoresRelevantes_eq, combos2_map]
  simp [specPairConds, List.map_map, Function.comp, pairConds]

/-- The source's pair loop equals the spec's first-hit waterfall over the
same filters, and its trace is exactly the executed ones. -/
theorem tryPairs_eq_spec (env : RetrieverEnv)
    (ps : List ((String × String × String) × (String × String × String))) :
    tryPairs env ps =
      ((specFirstHit env.storeFilter (ps.map pairConds)).1,
       (specFirstHit env.storeFilter (ps.map pairConds)).2.map
         (fun c => REvent.filterCall c 10)) := by
  induction ps with
  | nil => rfl
  | cons p rest ih =>
    simp only [tryPairs, List.map_cons, specFirstHit]
    cases hx : (env.storeFilter (pairConds p) 10).isEmpty
    · simp [hx]
    · simp [hx, ih]

/-- C7: when the full conjunctive filter returns no rows, the keyword stage
executes exactly the spec's pair filters — unordered pairs drawn from the
priority fields `tracto, cliente, fecha_emision, contenedor, conductor` that
have values, in that fixed enumeration order, using the first extracted value
per field — stopping at the first pair yielding at least one row; its result
is that pair's rows, or empty if no pair (possibly none exist) yields rows. -/
theorem pairwise_fallback_waterfall (env : RetrieverEnv) (q : String)
    (hfull :
      env.storeFilter (condicionesOf (extractar_valores_relevantes q)) 10 = []) :
    keywordStage env (extractar_valores_relevantes q) =
      ((specFirstHit env.storeFilter
          (specPairConds (extractar_valores_relevantes q))).1,
       (if (condicionesOf (extractar_valores_relevantes q)).isEmpty then []
        else [REvent.filterCall
          (condicionesOf (extractar_valores_relevantes q)) 10]) ++
       (specFirstHit env.storeFilter
          (specPairConds (extractar_valores_relevantes q))).2.map
         (fun c => REvent.filterCall c 10)) := by
  have hps := tryPairs_eq_spec env (combos2 (valoresRelevantes (extractar_valores_relevantes q)))
  rw [pairConds_spec] at hps
  simp only [keywordStage]
  cases hc : (condicionesOf (extractar_valores_relevantes q)).isEmpty
  · simp [hc, hfull, hps]
  · simp [hc, hps]


/-- Witness for C7 at an empty store and the query `GOODYEAR`. -/
theorem pairwise_fallback_waterfall_witness :
    keywordStage envNoRows (extractar_valores_relevantes "GOODYEAR") =
      ((specFirstHit envNoRows.storeFilter
          (specPairConds (extractar_valores_relevantes "GOODYEAR"))).1,
       (if (condicionesOf (extractar_valores_relevantes "GOODYEAR")).isEmpty
        then []
        else [REvent.filterCall
          (condicionesOf (extractar_valores_relevantes "GOODYEAR")) 10]) ++
       (specFirstHit envNoRows.storeFilter
          (specPairConds (extractar_valores_relevantes "GOODYEAR"))).2.map
         (fun c => REvent.filterCall c 10)) :=
  pairwise_fallback_waterfall envNoRows "GOODYEAR" rfl

/-! ## History append (C9) -/

/-- When the shared append block completes, its response text matches, its
trace is exactly one insert of the two turns, and the insert succeeded. -/
theorem finishWithHistory_ok (env : AgentEnv) (req : QueryRequestM)
    (respuesta : String) (docs : Option (List Document)) (uid : String)
    (r : QueryResponseM) (hu : req.user_id = some uid)
    (hok : (finishWithHistory env req respuesta docs).1 = .ok r) :
    r.response = respuesta ∧
    (finishWithHistory env req respuesta docs).2 =
      [[⟨uid, "user", req.query⟩, ⟨uid, "ai", respuesta⟩]] ∧
    env.historyInsert [⟨uid, "user", req.query⟩, ⟨uid, "ai", respuesta⟩] =
      .ok () := by
  simp only [finishWithHistory, hu] at hok ⊢
  cases hins : env.historyInsert
      [⟨uid, "user", req.query⟩, ⟨uid, "ai", respuesta⟩] with
  | ok u =>
    rw [hins] at hok
    simp only at hok
    cases u
    refine ⟨?_, by simp [hins], rfl⟩
    cases hok
    rfl
  | error e =>
    rw [hins] at hok
    simp at hok

/-- C9 amended: on every completed answer with a user identifier present,
exactly one history-insert call is made and it appends exactly the two
entries (user turn, assistant turn with the returned response); however the
append is NOT fire-and-forget — the request only completes when the insert
succeeded, so an insert failure fails the request. -/
theorem history_append_exactly_two (env : AgentEnv) (req : QueryRequestM)
    (uid : String) (r : QueryResponseM) (hu : req.user_id = some uid)
    (hok : (queryAgent env req).1 = .ok r) :
    (queryAgent env req).2 =
      [[⟨uid, "user", req.query⟩, ⟨uid, "ai", r.response⟩]] ∧
    env.historyInsert [⟨uid, "user", req.query⟩, ⟨uid, "ai", r.response⟩] =
      .ok () := by
  simp only [queryAgent, hu] at hok ⊢
  generalize hg : env.geminiPro
    (promptConEsquema (histToString (env.historyFetch uid)) req.query) = g at hok ⊢
  cases g with
  | none =>
    simp only [ragBranch] at hok ⊢
    have h := finishWithHistory_ok env req _ _ uid r hu hok
    rw [h.1]
    exact ⟨h.2.1, h.2.2⟩
  | some fc =>
    by_cases hn : fc.name = "consultar_bd"
    · simp only [hn, if_true, structuredBranch] at hok ⊢
      cases hdb : (consultarBdFromCall env.db fc.args).1 with
      | error e => rw [hdb] at hok; simp at hok
      | ok res =>
        rw [hdb] at hok
        dsimp only at hok ⊢
        have h := finishWithHistory_ok env req _ _ uid r hu hok
        rw [h.1]
        exact ⟨h.2.1, h.2.2⟩
    · simp only [hn, if_false, ragBranch] at hok ⊢
      have h := finishWithHistory_ok env req _ _ uid r hu hok
      rw [h.1]
      exact ⟨h.2.1, h.2.2⟩


/-- Counterexample to C9 as stated: when the history append fails, the
endpoint does NOT still deliver the response — the failure propagates and the
caller receives the generic error (`HTTPException(500)` in the source), so
the append is not fire-and-forget. -/
theorem history_append_failure_cex :
    (queryAgent envInsertFail reqWithUser).1 = .error "insert failed" := by
  rfl


/-- Witness for the amended C9: a completed answer with a user identifier
appends exactly the two conversation turns. -/
theorem history_append_exactly_two_witness :
    (queryAgent envInsertOk reqWithUser).2 =
      [[⟨"u1", "user", "hola"⟩, ⟨"u1", "ai", "RESPUESTA"⟩]] ∧
    envInsertOk.historyInsert
      [⟨"u1", "user", "hola"⟩, ⟨"u1", "ai", "RESPUESTA"⟩] = .ok () :=
  history_append_exactly_two envInsertOk reqWithUser "u1"
    ⟨"RESPUESTA", some [], none⟩ rfl (by rfl)

/-! ## Container extraction, universally (C5) -/

/-- `takeN` consumes exactly a block of satisfying characters. -/
theorem takeN_exact (p : Char → Bool) (xs ys : List Char)
    (h : ∀ x ∈ xs, p x = true) :
    takeN p xs.length (xs ++ ys) = some (xs, ys) := by
  induction xs with
  | nil => rfl
  | cons a l ih =>
    have ha : p a = true := h a (List.mem_cons_self a l)
    simp only [List.length_cons, List.cons_append, takeN, ha, if_true,
      List.append_eq]
    rw [ih (fun x hx => h x (List.mem_cons_of_mem a hx))]

/-- Success of `takeN` splits the text and characterizes the block. -/
theorem takeN_eq (p : Char → Bool) :
    ∀ (n : Nat) (t m r : List Char), takeN p n t = some (m, r) →
      t = m ++ r ∧ m.length = n ∧ ∀ x ∈ m, p x = true := by
  intro n
  induction n with
  | zero =>
    intro t m r h
    simp only [takeN, Option.some.injEq, Prod.mk.injEq] at h
    obtain ⟨rfl, rfl⟩ := h
    simp
  | succ n ih =>
    intro t m r h
    cases t with
    | nil => simp [takeN] at h
    | cons c ts =>
      simp only [takeN] at h
      by_cases hp : p c = true
      · rw [if_pos hp] at h
        cases hk : takeN p n ts with
        | none => rw [hk] at h; simp at h
        | some pr =>
          obtain ⟨m1, r1⟩ := pr
          rw [hk] at h
          simp only [Option.some.injEq, Prod.mk.injEq] at h
          obtain ⟨rfl, rfl⟩ := h
          obtain ⟨ht, hlen, hall⟩ := ih ts m1 r1 hk
          subst ht
          refine ⟨rfl, by simp [hlen], ?_⟩
          intro x hx
          rcases List.mem_cons.mp hx with rfl | hx
          · exact hp
          · exact hall x hx
      · rw [if_neg hp] at h
        simp at h

/-- `takeN` fails when the satisfying run is too short for the count. -/
theorem takeN_stops (p : Char → Bool) (xs : List Char) :
    ∀ (n : Nat) (y : Char) (ys : List Char),
      xs.length < n → (∀ x ∈ xs, p x = true) → p y = false →
      takeN p n (xs ++ y :: ys) = none := by
  induction xs with
  | nil =>
    intro n y ys hlen hall hy
    cases n with
    | zero => omega
    | succ n => simp [takeN, hy]
  | cons a l ih =>
    intro n y ys hlen hall hy
    cases n with
    | zero => omega
    | succ n =>
      have ha : p a = true := hall a (List.mem_cons_self a l)
      simp only [List.cons_append, takeN, ha, if_true, List.append_eq]
      rw [ih n y ys (by simpa using hlen)
        (fun x hx => hall x (List.mem_cons_of_mem a hx)) hy]

/-- A digit is not an uppercase letter. -/
theorem isDig_not_isUpper (x : Char) (h : isDig x = true) : isUpper x = false := by
  simp only [isDig, decide_eq_true_eq] at h
  simp only [isUpper, decide_eq_false_iff_not]
  rintro ⟨hA, _⟩
  exact absurd (le_trans hA h.2) (by decide)

/-- Uppercasing fixes uppercase letters, digits, the space and the dash. -/
theorem upperChar_fix (x : Char)
    (h : isUpper x = true ∨ isDig x = true ∨ x = ' ' ∨ x = '-') :
    upperChar x = x := by
  have hne : x ≠ 'á' ∧ x ≠ 'é' ∧ x ≠ 'í' ∧ x ≠ 'ó' ∧ x ≠ 'ú' ∧ x ≠ 'ñ' ∧
      x ≠ 'ü' ∧ ¬('a' ≤ x ∧ x ≤ 'z') := by
    rcases h with h | h | rfl | rfl
    · simp only [isUpper, decide_eq_true_eq] at h
      refine ⟨?_, ?_, ?_, ?_, ?_, ?_, ?_, ?_⟩
      all_goals first
        | (rintro rfl; revert h; decide)
        | (rintro ⟨ha, _⟩; exact absurd (le_trans ha h.2) (by decide))
    · simp only [isDig, decide_eq_true_eq] at h
      refine ⟨?_, ?_, ?_, ?_, ?_, ?_, ?_, ?_⟩
      all_goals first
        | (rintro rfl; revert h; decide)
        | (rintro ⟨ha, _⟩; exact absurd (le_trans ha h.2) (by decide))
    · exact ⟨by decide, by decide, by decide, by decide, by decide, by decide,
        by decide, by decide⟩
    · exact ⟨by decide, by decide, by decide, by decide, by decide, by decide,
        by decide, by decide⟩
  obtain ⟨h1, h2, h3, h4, h5, h6, h7, h8⟩ := hne
  unfold upperChar
  rw [if_neg h1, if_neg h2, if_neg h3, if_neg h4, if_neg h5, if_neg h6,
    if_neg h7, if_neg h8]

/-- A pointwise-fixed list is fixed by the uppercasing map. -/
theorem upperMap_id (l : List Char) (h : ∀ x ∈ l, upperChar x = x) :
    List.map upperChar l = l := by
  induction l with
  | nil => rfl
  | cons a t ih =>
    simp only [List.map_cons, h a (List.mem_cons_self a t)]
    rw [ih (fun x hx => h x (List.mem_cons_of_mem a hx))]

/-- Uppercasing distributes over concatenation. -/
theorem upperL_append (l1 l2 : List Char) :
    upperL (l1 ++ l2) = upperL l1 ++ upperL l2 := by
  simp [upperL]

/-- A well-formed container identifier is fixed by uppercasing. -/
theorem upperL_contForm (ls ds : List Char) (c : Char)
    (hlsU : ∀ x ∈ ls, isUpper x = true) (hdsD : ∀ x ∈ ds, isDig x = true)
    (hc : isDig c = true) :
    upperL (contForm ls ds c) = contForm ls ds c := by
  unfold contForm upperL
  rw [List.map_append, upperMap_id ls (fun x hx => upperChar_fix x (Or.inl (hlsU x hx)))]
  simp only [List.map_cons, List.map_append, List.map_nil]
  rw [upperChar_fix ' ' (Or.inr (Or.inr (Or.inl rfl))),
    upperMap_id ds (fun x hx => upperChar_fix x (Or.inr (Or.inl (hdsD x hx)))),
    upperChar_fix '-' (Or.inr (Or.inr (Or.inr rfl))),
    upperChar_fix c (Or.inr (Or.inl hc))]

/-- The container tail matcher succeeds exactly on its block. -/
theorem contTail_exact (ls ds : List Char) (c : Char) (b : List Char)
    (hdsD : ∀ x ∈ ds, isDig x = true) (hc : isDig c = true) (n : Nat)
    (hn : ds.length = n) :
    contTail ls n (ds ++ '-' :: c :: b) = some (contForm ls ds c, b) := by
  subst hn
  unfold contTail
  rw [takeN_exact isDig ds ('-' :: c :: b) hdsD]
  dsimp only
  rw [if_pos ⟨rfl, hc⟩]

/-- With only six digits available the seven-digit attempt fails. -/
theorem contTail_seven_of_six (ls ds : List Char) (c : Char) (b : List Char)
    (hdsD : ∀ x ∈ ds, isDig x = true) (h6 : ds.length = 6) :
    contTail ls 7 (ds ++ '-' :: c :: b) = none := by
  unfold contTail
  rw [takeN_stops isDig ds 7 '-' (c :: b) (by omega) hdsD (by decide)]

/-- The container matcher, attempted at the start of a well-formed identifier,
matches exactly that identifier whatever follows. -/
theorem matchCont_exact (ls ds : List Char) (c : Char) (b : List Char)
    (hls : ls.length = 4) (hlsU : ∀ x ∈ ls, isUpper x = true)
    (hds6 : ds.length = 6 ∨ ds.length = 7) (hdsD : ∀ x ∈ ds, isDig x = true)
    (hc : isDig c = true) :
    matchCont (contForm ls ds c ++ b) = some (contForm ls ds c, b) := by
  have hsplit : contForm ls ds c ++ b = ls ++ ' ' :: (ds ++ '-' :: c :: b) := by
    simp [contForm]
  have h4 : takeN isUpper 4 (ls ++ ' ' :: (ds ++ '-' :: c :: b)) =
      some (ls, ' ' :: (ds ++ '-' :: c :: b)) := by
    have h := takeN_exact isUpper ls (' ' :: (ds ++ '-' :: c :: b)) hlsU
    rwa [hls] at h
  rw [hsplit]
  unfold matchCont
  rw [h4]
  dsimp only
  rw [if_pos rfl]
  rcases hds6 with h6 | h7
  · rw [contTail_seven_of_six ls ds c b hdsD h6]
    exact contTail_exact ls ds c b hdsD hc 6 h6
  · rw [contTail_exact ls ds c b hdsD hc 7 h7]

/-- Success of the container tail matcher characterizes its input. -/
theorem contTail_eq (ls : List Char) (n : Nat) (t2 m r : List Char)
    (h : contTail ls n t2 = some (m, r)) :
    ∃ ds c, m = contForm ls ds c ∧ ds.length = n ∧
      (∀ x ∈ ds, isDig x = true) ∧ isDig c = true ∧
      t2 = ds ++ '-' :: c :: r := by
  unfold contTail at h
  cases hk : takeN isDig n t2 with
  | none => rw [hk] at h; simp at h
  | some pr =>
    obtain ⟨ds, t3⟩ := pr
    rw [hk] at h
    obtain ⟨ht2, hlen, hall⟩ := takeN_eq isDig n t2 ds t3 hk
    cases t3 with
    | nil => simp at h
    | cons d t3b =>
      cases t3b with
      | nil => simp at h
      | cons c t4 =>
        dsimp only at h
        by_cases hdc : d = '-' ∧ isDig c = true
        · rw [if_pos hdc] at h
          simp only [Option.some.injEq, Prod.mk.injEq] at h
          obtain ⟨rfl, rfl⟩ := h
          exact ⟨ds, c, rfl, hlen, hall, hdc.2, by rw [ht2, hdc.1]⟩
        · rw [if_neg hdc] at h
          simp at h

/-- Any successful container match has the canonical well-formed shape and
splits the text. -/
theorem matchCont_shape (t m r : List Char) (h : matchCont t = some (m, r)) :
    ∃ ls ds c, m = contForm ls ds c ∧ t = m ++ r ∧ ls.length = 4 ∧
      (∀ x ∈ ls, isUpper x = true) ∧ (ds.length = 6 ∨ ds.length = 7) ∧
      (∀ x ∈ ds, isDig x = true) ∧ isDig c = true := by
  unfold matchCont at h
  cases h4 : takeN isUpper 4 t with
  | none => rw [h4] at h; simp at h
  | some pr =>
    obtain ⟨ls, t1⟩ := pr
    rw [h4] at h
    obtain ⟨ht, hlen4, hup⟩ := takeN_eq isUpper 4 t ls t1 h4
    cases t1 with
    | nil => simp at h
    | cons sp t2 =>
      dsimp only at h
      by_cases hsp : sp = ' '
      · rw [if_pos hsp] at h
        subst hsp
        cases h7 : contTail ls 7 t2 with
        | some x =>
          rw [h7] at h
          dsimp only at h
          injection h with h
          subst h
          obtain ⟨ds, c, hm, hlen, hall, hc, ht2⟩ := contTail_eq ls 7 t2 m r h7
          refine ⟨ls, ds, c, hm, ?_, hlen4, hup, Or.inr hlen, hall, hc⟩
          rw [ht, ht2, hm]
          simp [contForm]
        | none =>
          rw [h7] at h
          dsimp only at h
          obtain ⟨ds, c, hm, hlen, hall, hc, ht2⟩ := contTail_eq ls 6 t2 m r h
          refine ⟨ls, ds, c, hm, ?_, hlen4, hup, Or.inl hlen, hall, hc⟩
          rw [ht, ht2, hm]
          simp [contForm]
      · rw [if_neg hsp] at h
        simp at h

/-- Unfolding of the scan on a successful match. -/
theorem scanN_head (m : List Char → Option (List Char × List Char))
    (fuel : Nat) (t mt r : List Char) (hm : m t = some (mt, r)) (ht : t ≠ []) :
    scanN m (fuel + 1) t = mt :: scanN m fuel r := by
  cases t with
  | nil => exact absurd rfl ht
  | cons c ts => simp [scanN, hm]

/-- Unfolding of the scan on a failed attempt. -/
theorem scanN_skip (m : List Char → Option (List Char × List Char))
    (fuel : Nat) (c : Char) (ts : List Char) (hm : m (c :: ts) = none) :
    scanN m (fuel + 1) (c :: ts) = scanN m fuel ts := by
  simp [scanN, hm]

/-- Core of C5: whatever surrounds it, a well-formed dashed container
identifier is emitted by the findall scan of the `contenedor` pattern.  No
earlier match can consume the identifier's start: a match ends in
`digits-digit` after a space, so its overlap with the four leading letters of
the identifier is impossible. -/
theorem scanN_mem (ls ds : List Char) (c : Char) (b : List Char)
    (hls : ls.length = 4) (hlsU : ∀ x ∈ ls, isUpper x = true)
    (hds6 : ds.length = 6 ∨ ds.length = 7) (hdsD : ∀ x ∈ ds, isDig x = true)
    (hc : isDig c = true) :
    ∀ (fuel : Nat) (a : List Char),
      (a ++ (contForm ls ds c ++ b)).length ≤ fuel →
      contForm ls ds c ∈ scanN matchCont fuel (a ++ (contForm ls ds c ++ b)) := by
  obtain ⟨e1, e2, e3, e4, rfl⟩ : ∃ e1 e2 e3 e4, ls = [e1, e2, e3, e4] := by
    cases ls with
    | nil => simp at hls
    | cons e1 l1 =>
      cases l1 with
      | nil => simp at hls
      | cons e2 l2 =>
        cases l2 with
        | nil => simp at hls
        | cons e3 l3 =>
          cases l3 with
          | nil => simp at hls
          | cons e4 l4 =>
            cases l4 with
            | nil => exact ⟨e1, e2, e3, e4, rfl⟩
            | cons e5 l5 => simp at hls
  have hU1 : isUpper e1 = true := hlsU e1 (by simp)
  have hU2 : isUpper e2 = true := hlsU e2 (by simp)
  have hU3 : isUpper e3 = true := hlsU e3 (by simp)
  have hU4 : isUpper e4 = true := hlsU e4 (by simp)
  have hexact := matchCont_exact [e1, e2, e3, e4] ds c b hls hlsU hds6 hdsD hc
  have hidne : contForm [e1, e2, e3, e4] ds c ≠ [] := by simp [contForm]
  intro fuel
  induction fuel with
  | zero =>
    intro a hlen
    exfalso
    have h1 : 0 < (contForm [e1, e2, e3, e4] ds c).length :=
      List.length_pos.mpr hidne
    simp only [List.length_append] at hlen
    omega
  | succ fuel ih =>
    intro a hlen
    cases a with
    | nil =>
      simp only [List.nil_append]
      rw [scanN_head matchCont fuel _ _ _ hexact
        (fun hx => hidne (List.append_eq_nil.mp hx).1)]
      exact List.mem_cons_self _ _
    | cons x a2 =>
      rw [List.cons_append]
      cases hm : matchCont (x :: (a2 ++ (contForm [e1, e2, e3, e4] ds c ++ b))) with
      | none =>
        rw [scanN_skip matchCont fuel _ _ hm]
        apply ih a2
        simp only [List.cons_append, List.length_cons, List.length_append] at hlen ⊢
        omega
      | some pr =>
        obtain ⟨mt, r⟩ := pr
        rw [scanN_head matchCont fuel _ _ _ hm (by simp)]
        obtain ⟨mls, mds, mc, hmt, hteq, hml4, hmlU, hmd67, hmdD, hmc⟩ :=
          matchCont_shape _ _ _ hm
        have hteq2 : (x :: a2) ++ (contForm [e1, e2, e3, e4] ds c ++ b) =
            mt ++ r := by
          simpa using hteq
        have hmtpos : 0 < mt.length := by
          rw [hmt]; simp [contForm]
        have hrlen : r.length ≤ fuel := by
          have hl := congrArg List.length hteq2
          simp only [List.length_append, List.length_cons] at hl hlen
          omega
        rcases List.append_eq_append_iff.mp hteq2 with ⟨u, hmtu, hidbu⟩ | ⟨u, hau, hru⟩
        · cases u with
          | nil =>
            apply List.mem_cons_of_mem
            have hr : r = contForm [e1, e2, e3, e4] ds c ++ b := by
              simpa using hidbu.symm
            rw [hr]
            have hmem := ih []
            simp only [List.nil_append] at hmem
            apply hmem
            rw [← hr]
            exact hrlen
          | cons u0 u1 =>
            exfalso
            have hidbu2 :
                e1 :: (e2 :: e3 :: e4 :: ' ' :: (ds ++ '-' :: c :: b)) =
                  u0 :: (u1 ++ r) := by
              simpa [contForm] using hidbu
            injection hidbu2 with h0 hrest
            have hu0 : isUpper u0 = true := h0 ▸ hU1
            have hsplit2 : (x :: a2) ++ (u0 :: u1) =
                mls ++ (' ' :: (mds ++ '-' :: mc :: [])) := by
              rw [← hmtu, hmt]; simp [contForm]
            rcases List.append_eq_append_iff.mp hsplit2 with
              ⟨w, hmlsw, huw⟩ | ⟨w, haw, hw⟩
            · cases w with
              | nil =>
                simp only [List.nil_append] at huw
                injection huw with h0w _
                rw [h0w] at hu0
                exact absurd hu0 (by decide)
              | cons w0 w1 =>
                have hlw := congrArg List.length hmlsw
                simp only [List.length_append, List.length_cons, hml4] at hlw
                cases w1 with
                | nil =>
                  simp only [List.cons_append, List.nil_append] at huw
                  injection huw with _ h1w
                  rw [h1w] at hrest
                  simp only [List.cons_append] at hrest
                  injection hrest with h2w _
                  rw [h2w] at hU2
                  exact absurd hU2 (by decide)
                | cons w1b w2 =>
                  cases w2 with
                  | nil =>
                    simp only [List.cons_append, List.nil_append] at huw
                    injection huw with _ h1w
                    rw [h1w] at hrest
                    simp only [List.cons_append] at hrest
                    injection hrest with _ hrest2
                    injection hrest2 with h3w _
                    rw [h3w] at hU3
                    exact absurd hU3 (by decide)
                  | cons w2b w3 =>
                    cases w3 with
                    | nil =>
                      simp only [List.cons_append, List.nil_append] at huw
                      injection huw with _ h1w
                      rw [h1w] at hrest
                      simp only [List.cons_append] at hrest
                      injection hrest with _ hrest2
                      injection hrest2 with _ hrest3
                      injection hrest3 with h4w _
                      rw [h4w] at hU4
                      exact absurd hU4 (by decide)
                    | cons w3b w4 =>
                      simp only [List.length_cons] at hlw
                      omega
            · cases w with
              | nil =>
                simp only [List.nil_append] at hw
                injection hw with h0w _
                rw [← h0w] at hu0
                exact absurd hu0 (by decide)
              | cons w0 w1 =>
                simp only [List.cons_append] at hw
                injection hw with _ hmds
                rcases List.append_eq_append_iff.mp hmds with
                  ⟨s, hw1s, hs⟩ | ⟨s, hmdss, hs⟩
                · cases s with
                  | nil =>
                    simp only [List.nil_append] at hs
                    injection hs with h0s _
                    rw [← h0s] at hu0
                    exact absurd hu0 (by decide)
                  | cons s0 s1 =>
                    simp only [List.cons_append] at hs
                    injection hs with _ hs2
                    cases s1 with
                    | nil =>
                      simp only [List.nil_append] at hs2
                      injection hs2 with h0s _
                      rw [← h0s, isDig_not_isUpper mc hmc] at hu0
                      exact absurd hu0 (by decide)
                    | cons s10 s11 =>
                      simp only [List.cons_append] at hs2
                      injection hs2 with _ hs3
                      simp at hs3
                · cases s with
                  | nil =>
                    simp only [List.nil_append] at hs
                    injection hs with h0s _
                    rw [h0s] at hu0
                    exact absurd hu0 (by decide)
                  | cons s0 s1 =>
                    simp only [List.cons_append] at hs
                    injection hs with h0s _
                    have hs0mem : s0 ∈ mds := by
                      rw [hmdss]
                      exact List.mem_append_right w1 (List.mem_cons_self s0 s1)
                    rw [h0s, isDig_not_isUpper s0 (hmdD s0 hs0mem)] at hu0
                    exact absurd hu0 (by decide)
        · apply List.mem_cons_of_mem
          rw [hru]
          apply ih u
          rw [← hru]
          exact hrlen

/-- Counterexample to C5 as stated: the query `TCNU 5754568` contains a
well-formed container identifier in the claim's sense — the source's own
(dead) `container_id_pattern`, four letters + optional space + 6-7 digits,
matches it — yet `extractar_valores_relevantes` returns an empty `contenedor`
field, because the extractor's regex demands a mandatory space AND a trailing
`-digit`. -/
theorem contenedor_plain_id_cex :
    (scanN matchContainerId (upperL ("TCNU 5754568".data)).length
        (upperL ("TCNU 5754568".data))).map String.mk = ["TCNU 5754568"] ∧
    (extractar_valores_relevantes "TCNU 5754568").contenedor = [] := by
  constructor <;> decide

/-- C5 amended: for every query string containing a container identifier of
the form the extractor actually recognizes — 4 uppercase letters, a MANDATORY
space, 6-7 digits, a hyphen and a check digit (e.g. `TCNU 5754568-1`) — the
`contenedor` field contains that full identifier (prefix and serial number
included), regardless of the surrounding text. -/
theorem contenedor_dashed_id_extracted (a b : String) (ls ds : List Char)
    (c : Char) (hls : ls.length = 4) (hlsU : ∀ x ∈ ls, isUpper x = true)
    (hds6 : ds.length = 6 ∨ ds.length = 7) (hdsD : ∀ x ∈ ds, isDig x = true)
    (hc : isDig c = true) :
    String.mk (contForm ls ds c) ∈
      (extractar_valores_relevantes
        (a ++ String.mk (contForm ls ds c) ++ b)).contenedor := by
  have hup : upperL (a ++ String.mk (contForm ls ds c) ++ b).data =
      upperL a.data ++ (contForm ls ds c ++ upperL b.data) := by
    have hd : (a ++ String.mk (contForm ls ds c) ++ b).data =
        (a.data ++ contForm ls ds c) ++ b.data := by
      rw [String.data_append, String.data_append]
    rw [hd, upperL_append, upperL_append,
      upperL_contForm ls ds c hlsU hdsD hc, List.append_assoc]
  show String.mk (contForm ls ds c) ∈
    (scanN matchCont
      (upperL (a ++ String.mk (contForm ls ds c) ++ b).data).length
      (upperL (a ++ String.mk (contForm ls ds c) ++ b).data)).map String.mk
  rw [hup]
  exact List.mem_map_of_mem String.mk
    (scanN_mem ls ds c (upperL b.data) hls hlsU hds6 hdsD hc _
      (upperL a.data) (le_refl _))

/-- Witness for the amended C5: `TCNU 5754568-1` buried in surrounding text
is returned in the `contenedor` field. -/
theorem contenedor_dashed_id_extracted_witness :
    String.mk (contForm ['T', 'C', 'N', 'U']
        ['5', '7', '5', '4', '5', '6', '8'] '1') ∈
      (extractar_valores_relevantes
        ("estado de " ++ String.mk (contForm ['T', 'C', 'N', 'U']
          ['5', '7', '5', '4', '5', '6', '8'] '1') ++ " hoy")).contenedor :=
  contenedor_dashed_id_extracted "estado de " " hoy"
    ['T', 'C', 'N', 'U'] ['5', '7', '5', '4', '5', '6', '8'] '1'
    rfl (by decide) (Or.inr rfl) (by decide) (by decide)

end Ragpv
